import Mathlib

/-!
Verification development for the TouristTable backend (FastAPI + MongoDB).

The file shallowly embeds the request handlers of `src/main.py` (and the data
shapes of `src/schemas.py`) as executable Lean functions:

* machine floats are modelled as rationals (`ℚ`);
* the document store is a record of per-collection lists of typed documents;
* MongoDB operations used by the handlers (`find` with a filter and a limit,
  `find_one`, `update_one` with `$set`, the two `$match`/`$group` aggregation
  pipelines) are modelled as list operations;
* handlers return an `Except Err` result together with the new store state and
  the list of store operations they performed, in order;
* `datetime.now(...)` values (the `updated_at` timestamp, today's ISO date
  string) are passed as explicit parameters, since the clock is not modelled;
* Python `str.lower` and `str.split()` are modelled by ASCII lowering and
  whitespace splitting; they agree on the ASCII data the handlers manipulate.

The module `database.py` is imported by `src/main.py` but is not part of the
sources; its `get_documents` (the store adapter's `find`) is modelled from the
spec, as marked by its doc comment.
-/

namespace TouristTable

/-- Error raised by a handler: HTTP status code plus detail string, modelling
`fastapi.HTTPException` (and the 422 produced by query-parameter validation). -/
structure Err where
  code : Nat
  detail : String
  deriving DecidableEq, Repr

/-- A store operation performed by a handler, recorded in order.  Used to state
the "no store call is made" parts of the spec. -/
inductive StoreOp where
  | insert : String → StoreOp
  | findOne : String → StoreOp
  | find : String → StoreOp
  | updateOne : String → StoreOp
  | aggregate : String → StoreOp
  deriving DecidableEq, Repr

instance exceptDecEq {ε α : Type} [DecidableEq ε] [DecidableEq α] :
    DecidableEq (Except ε α)
  | .ok a, .ok b => if h : a = b then .isTrue (by rw [h]) else .isFalse (by simp [h])
  | .ok _, .error _ => .isFalse (by simp)
  | .error _, .ok _ => .isFalse (by simp)
  | .error a, .error b => if h : a = b then .isTrue (by rw [h]) else .isFalse (by simp [h])

/-- One hexadecimal digit, upper or lower case (`bytes.fromhex` accepts both). -/
def hexDigit (c : Char) : Bool :=
  c.isDigit || (('a' ≤ c) && (c ≤ 'f')) || (('A' ≤ c) && (c ≤ 'F'))

/-- `bson.ObjectId(s)` succeeds on a string exactly when it is a 24-character
hexadecimal string; this models that validity test (`main.py:37-41` wraps it). -/
def isValidObjectId (s : String) : Bool :=
  s.length == 24 && s.toList.all hexDigit

/-- Python `str.lower()` (ASCII; the dictionary keys, language codes and ids
the handlers lowercase are ASCII). -/
def toLowerStr (s : String) : String :=
  String.mk (s.data.map Char.toLower)

/-- Splitting a character list on runs of whitespace, accumulating the current
token in reverse. -/
def wsSplitAux : List Char → List Char → List (List Char)
  | [], acc => if acc.isEmpty then [] else [acc.reverse]
  | c :: cs, acc =>
      if c.isWhitespace then
        if acc.isEmpty then wsSplitAux cs []
        else acc.reverse :: wsSplitAux cs []
      else wsSplitAux cs (c :: acc)

/-- Python `str.split()` with no argument: split on runs of whitespace,
discarding empty pieces (so leading/trailing whitespace produces no tokens). -/
def pySplit (s : String) : List String :=
  (wsSplitAux s.data []).map String.mk

/-- The characters stripped by `token.lower().strip(",.!?;:")` in
`translate_text` (`main.py:357`). -/
def isPunct (c : Char) : Bool :=
  (c == ',') || (c == '.') || (c == '!') || (c == '?') || (c == ';') || (c == ':')

/-- Python `str.strip(",.!?;:")`: remove those characters from both ends. -/
def stripPunct (s : String) : String :=
  String.mk (((s.toList.dropWhile isPunct).reverse.dropWhile isPunct).reverse)

/-- The Albanian dictionary of `translate_menu` (`main.py:332-335`). -/
def sqDict : List (String × String) :=
  [("salad", "sallatë"), ("cheese", "djathë"), ("grilled", "i pjekur"),
   ("chicken", "pulë"), ("fish", "peshk"), ("beef", "mish viçi"), ("bread", "bukë")]

/-- The Italian dictionary of `translate_menu` (`main.py:336-339`). -/
def itDict : List (String × String) :=
  [("salad", "insalata"), ("cheese", "formaggio"), ("grilled", "alla griglia"),
   ("chicken", "pollo"), ("fish", "pesce"), ("beef", "manzo"), ("bread", "pane")]

/-- The German dictionary of `translate_menu` (`main.py:340-343`). -/
def deDict : List (String × String) :=
  [("salad", "salat"), ("cheese", "käse"), ("grilled", "gegrillt"),
   ("chicken", "hähnchen"), ("fish", "fisch"), ("beef", "rindfleisch"), ("bread", "brot")]

/-- The French dictionary of `translate_menu` (`main.py:344-347`). -/
def frDict : List (String × String) :=
  [("salad", "salade"), ("cheese", "fromage"), ("grilled", "grillé"),
   ("chicken", "poulet"), ("fish", "poisson"), ("beef", "boeuf"), ("bread", "pain")]

/-- The outer `dictionary` of `translate_menu` (`main.py:330-348`): per-language
lookup tables, with `"en"` mapped to the empty table. -/
def menuDict : List (String × List (String × String)) :=
  [("en", []), ("sq", sqDict), ("it", itDict), ("de", deDict), ("fr", frDict)]

/-- `dictionary.get(tgt, {})` (`main.py:350`): the table for a target language
code, the empty table when the code is unknown. -/
def baseFor (tgt : String) : List (String × String) :=
  (menuDict.lookup tgt).getD []

/-- One token of `translate_text` (`main.py:356-359`): look the
lowercased, punctuation-stripped token up in the table; `trans if trans else
token` keeps the token when the lookup misses (or yields an empty string). -/
def translateToken (base : List (String × String)) (token : String) : String :=
  match base.lookup (stripPunct (toLowerStr token)) with
  | some tr => if tr == "" then token else tr
  | none => token

/-- The `out` accumulation loop of `translate_text` (`main.py:355-359`). -/
def translateLoop (base : List (String × String)) :
    List String → List String → List String
  | out, [] => out
  | out, token :: rest => translateLoop base (out ++ [translateToken base token]) rest

/-- `translate_text` (`main.py:352-360`): empty text is returned unchanged;
otherwise the whitespace tokens are translated one by one and joined with
single spaces. -/
def translate_text (base : List (String × String)) (text : String) : String :=
  if text == "" then text
  else String.intercalate " " (translateLoop base [] (pySplit text))

/-- A JSON-ish scalar value carried by a menu item. -/
inductive Val where
  | vstr : String → Val
  | vint : Int → Val
  | vbool : Bool → Val
  deriving DecidableEq, Repr

/-- Python `str(...)` on the modelled values. -/
def pyStr : Val → String
  | .vstr s => s
  | .vint n => toString n
  | .vbool b => if b then "True" else "False"

/-- A menu item: a JSON object, modelled as an association list whose lookup
takes the first matching key. -/
def Item := List (String × Val)

instance : DecidableEq Item := by
  unfold Item
  infer_instance

instance : Repr Item := by
  unfold Item
  infer_instance

/-- Setting a key in a JSON object (`{**it, k: v}`): replace the value at the
first occurrence of the key, or append the pair when the key is absent. -/
def setKey : Item → String → Val → Item
  | [], k, v => [(k, v)]
  | (k0, v0) :: rest, k, v =>
      if k0 == k then (k, v) :: rest else (k0, v0) :: setKey rest k v

/-- The per-item body of the loop in `translate_menu` (`main.py:363-366`):
translate the stringified `name` and `description` (defaulting to `""`), keep
every other key, and set `lang` to the (already lowercased) target code. -/
def translateItem (tgt : String) (it : Item) : Item :=
  let name := translate_text (baseFor tgt) (pyStr ((it.lookup "name").getD (.vstr "")))
  let desc := translate_text (baseFor tgt) (pyStr ((it.lookup "description").getD (.vstr "")))
  setKey (setKey (setKey it "name" (.vstr name)) "description" (.vstr desc)) "lang" (.vstr tgt)

/-- `translate_menu` (`main.py:326-368`): lowercase the target code, translate
every item, return the items together with the language code. -/
def translate_menu (items : List Item) (target_lang : String) : List Item × String :=
  let tgt := toLowerStr target_lang
  (items.map (translateItem tgt), tgt)

/-- A stored Restaurant document (`schemas.py:19-33`), with its generated
`_id` kept in external (lowercase hexadecimal) string form as `oid`, and the
server-set `updated_at` timestamp added by the PATCH handlers. -/
structure RestaurantDoc where
  oid : String
  owner_id : Option String
  name : String
  address : String
  city : String
  cuisine : List String
  description : Option String
  latitude : Option ℚ
  longitude : Option ℚ
  avg_rating : ℚ
  price_level : Option Int
  menu : List Item
  images : List String
  accepts_reservations : Bool
  tourist_discounts : List Item
  updated_at : Option ℚ
  deriving DecidableEq, Repr

/-- A stored Review document (`schemas.py:35-41`).  Its own generated `_id` is
not read by any handler and is not modelled. -/
structure ReviewDoc where
  restaurant_id : String
  user_name : String
  user_country : Option String
  rating : Int
  comment : Option String
  is_trusted : Bool
  deriving DecidableEq, Repr

/-- A stored Reservation document (`schemas.py:51-58`) with its `_id` in
external string form. -/
structure ReservationDoc where
  oid : String
  restaurant_id : String
  name : String
  email : String
  party_size : Int
  date_time : String
  status : String
  notes : Option String
  updated_at : Option ℚ
  deriving DecidableEq, Repr

/-- A stored Event document (`schemas.py:43-49`). -/
structure EventDoc where
  title : String
  city : String
  date : String
  description : Option String
  category : String
  venue : Option String
  deriving DecidableEq, Repr

/-- A stored Discount document (`schemas.py:69-74`). -/
structure DiscountDoc where
  restaurant_id : String
  code : String
  description : Option String
  percent : ℚ
  active : Bool
  deriving DecidableEq, Repr

/-- A stored Campaign document (`schemas.py:60-67`). -/
structure CampaignDoc where
  restaurant_id : String
  name : String
  message : String
  target_cuisines : List String
  target_cities : List String
  budget_eur : Option ℚ
  active : Bool
  deriving DecidableEq, Repr

/-- The document database: one list of documents per collection touched by the
embedded handlers. -/
structure DB where
  restaurants : List RestaurantDoc
  reviews : List ReviewDoc
  reservations : List ReservationDoc
  events : List EventDoc
  discounts : List DiscountDoc
  campaigns : List CampaignDoc
  deriving DecidableEq, Repr

/-- Modelled from the spec: `database.py` is not among the sources; its
`get_documents` wraps the store adapter's `find(collectionName, filter, limit)`,
which per §4.1 "returns the sequence of documents in the named collection
matching all filter clauses ... truncated to `limit`". -/
def get_documents {α : Type} (pred : α → Bool) (limit : Nat) (docs : List α) : List α :=
  (docs.filter pred).take limit

/-- FastAPI query-parameter handling for `limit: int = Query(default, le=maxv)`:
an omitted parameter takes the default, a supplied parameter above the bound is
rejected with a 422 validation error before the handler body runs. -/
def validateLimit (dflt maxv : Nat) : Option Nat → Except Err Nat
  | none => .ok dflt
  | some n => if n ≤ maxv then .ok n else .error ⟨422, "limit validation"⟩

/-- Common shape of every list endpoint: validate the limit, then return the
matching documents truncated to it. -/
def runList {α : Type} (dflt maxv : Nat) (pred : α → Bool) (docs : List α)
    (limit? : Option Nat) : Except Err (List α) :=
  match validateLimit dflt maxv limit? with
  | .ok n => .ok (get_documents pred n docs)
  | .error e => .error e

/-- Mongo's `update_one`: rewrite the first document matched by `m` with `f`
and report the matched count (`0` or `1`). -/
def updateFirst {α : Type} (m : α → Bool) (f : α → α) : List α → List α × Nat
  | [] => ([], 0)
  | x :: xs =>
      if m x then (f x :: xs, 1)
      else
        let r := updateFirst m f xs
        (x :: r.1, r.2)

/-- `ensure_object_id` (`main.py:37-41`): parse the caller-supplied id string,
raising HTTP 400 when it is not a valid `ObjectId`; a parsed id is kept in its
canonical lowercase external form. -/
def ensure_object_id (id_str : String) : Except Err String :=
  if isValidObjectId id_str then .ok (toLowerStr id_str)
  else .error ⟨400, "Invalid id format"⟩

/-- `GET /restaurants/{restaurant_id}` (`main.py:122-127`): validate the id
(inside the `find_one` argument, hence before the store call), then look the
restaurant up, 404 when absent. -/
def get_restaurant (restaurant_id : String) (db : DB) :
    Except Err RestaurantDoc × List StoreOp :=
  match ensure_object_id restaurant_id with
  | .error e => (.error e, [])
  | .ok oid =>
      match db.restaurants.find? (fun r => r.oid == oid) with
      | some doc => (.ok doc, [.findOne "restaurant"])
      | none => (.error ⟨404, "Restaurant not found"⟩, [.findOne "restaurant"])

/-- The `RestaurantPatch` request body (`main.py:130-139`): every field
optional; a field absent from the request (or sent as `null`) is `none`, which
`model_dump(exclude_none=True)` drops from the update set. -/
structure RestaurantPatch where
  name : Option String
  address : Option String
  city : Option String
  cuisine : Option (List String)
  description : Option String
  latitude : Option ℚ
  longitude : Option ℚ
  price_level : Option Int
  accepts_reservations : Option Bool
  deriving DecidableEq, Repr

/-- Whether `model_dump(exclude_none=True)` yields an empty update set. -/
def RestaurantPatch.isEmpty (p : RestaurantPatch) : Bool :=
  p.name.isNone && p.address.isNone && p.city.isNone && p.cuisine.isNone &&
  p.description.isNone && p.latitude.isNone && p.longitude.isNone &&
  p.price_level.isNone && p.accepts_reservations.isNone

/-- `$set` of the provided patch fields plus the server-set `updated_at`
timestamp (`main.py:144-148`). -/
def applyRestaurantPatch (p : RestaurantPatch) (now : ℚ) (r : RestaurantDoc) :
    RestaurantDoc :=
  { r with
    name := p.name.getD r.name
    address := p.address.getD r.address
    city := p.city.getD r.city
    cuisine := p.cuisine.getD r.cuisine
    description := match p.description with | some d => some d | none => r.description
    latitude := match p.latitude with | some v => some v | none => r.latitude
    longitude := match p.longitude with | some v => some v | none => r.longitude
    price_level := match p.price_level with | some v => some v | none => r.price_level
    accepts_reservations := p.accepts_reservations.getD r.accepts_reservations
    updated_at := some now }

/-- `PATCH /restaurants/{restaurant_id}` (`main.py:142-151`): an empty update
set returns `{updated: false}` with no store call (and no id validation);
otherwise the id is validated, `update_one` performs the `$set`, and a matched
count of zero yields 404. -/
def update_restaurant (restaurant_id : String) (p : RestaurantPatch) (now : ℚ)
    (db : DB) : Except Err Bool × DB × List StoreOp :=
  if p.isEmpty then (.ok false, db, [])
  else
    match ensure_object_id restaurant_id with
    | .error e => (.error e, db, [])
    | .ok oid =>
        let r := updateFirst (fun d => d.oid == oid) (applyRestaurantPatch p now)
          db.restaurants
        let db1 := { db with restaurants := r.1 }
        if r.2 == 0 then (.error ⟨404, "Restaurant not found"⟩, db1, [.updateOne "restaurant"])
        else (.ok true, db1, [.updateOne "restaurant"])

/-- The reviews for one restaurant: the documents produced by the `$match`
stage of the aggregation in `create_review` (`main.py:162-166`). -/
def reviewsFor (db : DB) (restaurant_id : String) : List ReviewDoc :=
  db.reviews.filter (fun rv => rv.restaurant_id == restaurant_id)

/-- The arithmetic mean of a list of ratings, as computed by the `$avg`
accumulator (exact rational arithmetic models the float). -/
def ratingMean (rs : List Int) : ℚ :=
  ((rs.sum : ℚ)) / (rs.length : ℚ)

/-- Python `round(x, 2)`: scale by 100, round half to even, scale back. -/
def pyRound2 (x : ℚ) : ℚ :=
  let y := x * 100
  let n := ⌊y⌋
  let frac := y - (n : ℚ)
  let r : Int :=
    if frac < 1/2 then n
    else if 1/2 < frac then n + 1
    else if Even n then n else n + 1
  (r : ℚ) / 100

/-- Lines 162-169 of `main.py`: aggregate the ratings of the restaurant's
reviews; when the aggregation yields no rows the update is skipped silently;
otherwise the restaurant id is parsed (HTTP 400 on failure) and the rounded
average is written to the restaurant's `avg_rating` via `update_one` (whose
matched count is not checked). -/
def update_avg_rating (restaurant_id : String) (db : DB) :
    Except Err Unit × DB × List StoreOp :=
  let agg := reviewsFor db restaurant_id
  if agg.isEmpty then (.ok (), db, [.aggregate "review"])
  else
    match ensure_object_id restaurant_id with
    | .error e => (.error e, db, [.aggregate "review"])
    | .ok oid =>
        let avg := ratingMean (agg.map (fun rv => rv.rating))
        let r := updateFirst (fun d => d.oid == oid)
          (fun d => { d with avg_rating := pyRound2 avg }) db.restaurants
        (.ok (), { db with restaurants := r.1 }, [.aggregate "review", .updateOne "restaurant"])

/-- `POST /restaurants/{restaurant_id}/reviews` (`main.py:156-170`): reject a
path/body restaurant id mismatch with 400; insert the review; then recompute
the restaurant's average rating.  The returned id of the inserted review is
not examined by any claim and is modelled as the insertion index; an exception from
the average update propagates after the insert has happened. -/
def create_review (restaurant_id : String) (payload : ReviewDoc) (db : DB) :
    Except Err String × DB × List StoreOp :=
  if restaurant_id != payload.restaurant_id then
    (.error ⟨400, "restaurant_id mismatch"⟩, db, [])
  else
    let db1 := { db with reviews := db.reviews ++ [payload] }
    match update_avg_rating restaurant_id db1 with
    | (.ok _, db2, ops) => (.ok (toString db.reviews.length), db2, .insert "review" :: ops)
    | (.error e, db2, ops) => (.error e, db2, .insert "review" :: ops)

/-- A sequence of review creations for one restaurant with the given ratings
(`user_country`, `comment` defaulted; schema defaults `is_trusted` to true). -/
def createReviews (restaurant_id user : String) (ratings : List Int) (db : DB) : DB :=
  ratings.foldl
    (fun d r =>
      (create_review restaurant_id
        ⟨restaurant_id, user, none, r, none, true⟩ d).2.1)
    db

/-- The `ReservationPatch` request body (`main.py:189-191`). -/
structure ReservationPatch where
  status : Option String
  notes : Option String
  deriving DecidableEq, Repr

/-- Whether `model_dump(exclude_none=True)` yields an empty update set. -/
def ReservationPatch.isEmpty (p : ReservationPatch) : Bool :=
  p.status.isNone && p.notes.isNone

/-- `$set` of the provided patch fields plus `updated_at` (`main.py:205-208`). -/
def applyReservationPatch (p : ReservationPatch) (now : ℚ) (r : ReservationDoc) :
    ReservationDoc :=
  { r with
    status := p.status.getD r.status
    notes := match p.notes with | some v => some v | none => r.notes
    updated_at := some now }

/-- `PATCH /reservations/{reservation_id}` (`main.py:203-212`), structured like
`update_restaurant`. -/
def update_reservation (reservation_id : String) (p : ReservationPatch) (now : ℚ)
    (db : DB) : Except Err Bool × DB × List StoreOp :=
  if p.isEmpty then (.ok false, db, [])
  else
    match ensure_object_id reservation_id with
    | .error e => (.error e, db, [])
    | .ok oid =>
        let r := updateFirst (fun d => d.oid == oid) (applyReservationPatch p now)
          db.reservations
        let db1 := { db with reservations := r.1 }
        if r.2 == 0 then (.error ⟨404, "Reservation not found"⟩, db1, [.updateOne "reservation"])
        else (.ok true, db1, [.updateOne "reservation"])

/-- One step of Mongo's case-insensitive `$regex` matching (`$options: "i"`),
for the fragment of the pattern language modelled here: a pattern character is
either the metacharacter `.`, matching any character, or a literal, matching
case-insensitively. -/
def chMatch (p c : Char) : Bool :=
  p == '.' || p.toLower == c.toLower

/-- Whether the pattern matches an initial segment of the text. -/
def matchHere : List Char → List Char → Bool
  | [], _ => true
  | _ :: _, [] => false
  | p :: ps, c :: cs => chMatch p c && matchHere ps cs

/-- Whether the pattern matches somewhere in the text (unanchored search, as
`$regex` performs). -/
def searchFrom : List Char → List Char → Bool
  | p, [] => matchHere p []
  | p, c :: cs => matchHere p (c :: cs) || searchFrom p cs

/-- The `{"$regex": pat, "$options": "i"}` clause used by `list_restaurants`
and `list_events` (`main.py:103,107-110,227`), modelled for patterns built from
literal characters and the `.` metacharacter. -/
def regexSearchCI (pat s : String) : Bool :=
  searchFrom pat.toList s.toList

/-- Literal matching of a (pre-lowercased) pattern against an initial segment
of a (pre-lowercased) text. -/
def subHere : List Char → List Char → Bool
  | [], _ => true
  | _ :: _, [] => false
  | p :: ps, c :: cs => p == c && subHere ps cs

/-- Literal search of a pattern anywhere in a text. -/
def subFrom : List Char → List Char → Bool
  | p, [] => subHere p []
  | p, c :: cs => subHere p (c :: cs) || subFrom p cs

/-- Executable case-insensitive substring test. -/
def containsCheck (pat s : String) : Bool :=
  subFrom (pat.toList.map Char.toLower) (s.toList.map Char.toLower)

/-- The spec's notion of case-insensitive substring containment: the lowercased
pattern occurs contiguously inside the lowercased text. -/
def containsCI (pat s : String) : Prop :=
  ∃ l r, s.toList.map Char.toLower = l ++ pat.toList.map Char.toLower ++ r

/-- Whether the pattern contains no `.`; on such patterns the modelled `$regex`
fragment is pure literal matching. -/
def noDot (pat : String) : Bool :=
  pat.toList.all (fun c => c != '.')

/-- The `city` filter clause (`main.py:102-103,226-227`): present only when the
parameter is supplied and non-empty (Python truthiness), and then a
case-insensitive `$regex` on the `city` field. -/
def cityPred (city : Option String) (s : String) : Bool :=
  match city with
  | none => true
  | some c => if c == "" then true else regexSearchCI c s

/-- The `cuisine` filter clause (`main.py:104-105`): `{"$in": [cuisine]}` on the
array field, i.e. membership of the value in the document's `cuisine` list. -/
def cuisinePred (cuisine : Option String) (r : RestaurantDoc) : Bool :=
  match cuisine with
  | none => true
  | some c => if c == "" then true else r.cuisine.contains c

/-- The free-text `q` clause (`main.py:106-111`): an `$or` of case-insensitive
`$regex` matches on `name`, `description` and `address`; a missing
`description` never matches its disjunct. -/
def qPred (q : Option String) (r : RestaurantDoc) : Bool :=
  match q with
  | none => true
  | some s =>
      if s == "" then true
      else
        regexSearchCI s r.name ||
        (match r.description with
         | some d => regexSearchCI s d
         | none => false) ||
        regexSearchCI s r.address

/-- The bounding-box clause (`main.py:112-116`): present only when both `lat`
and `lng` are supplied; inclusive `$gte`/`$lte` per axis with
`deg = radius_km / 111.0`; a document missing a coordinate never matches. -/
def geoPred (lat lng : Option ℚ) (radius_km : ℚ) (r : RestaurantDoc) : Bool :=
  match lat, lng with
  | some la, some lo =>
      let deg := radius_km / 111
      (match r.latitude with
       | some x => decide (la - deg ≤ x) && decide (x ≤ la + deg)
       | none => false) &&
      (match r.longitude with
       | some y => decide (lo - deg ≤ y) && decide (y ≤ lo + deg)
       | none => false)
  | _, _ => true

/-- The whole restaurant filter built by `list_restaurants` (`main.py:101-116`). -/
def restaurantPred (city cuisine q : Option String) (lat lng : Option ℚ)
    (radius_km : ℚ) (r : RestaurantDoc) : Bool :=
  cityPred city r.city && cuisinePred cuisine r && qPred q r &&
  geoPred lat lng radius_km r

/-- `GET /restaurants` (`main.py:91-119`): filter per query parameters, limit
`Query(50, le=200)`. -/
def list_restaurants (city cuisine q : Option String) (lat lng : Option ℚ)
    (radius_km : ℚ) (limit? : Option Nat) (db : DB) :
    Except Err (List RestaurantDoc) :=
  runList 50 200 (restaurantPred city cuisine q lat lng radius_km)
    db.restaurants limit?

/-- `GET /restaurants/{restaurant_id}/reviews` (`main.py:173-176`): reviews of
one restaurant, limit `Query(50, le=200)`. -/
def list_reviews (restaurant_id : String) (limit? : Option Nat) (db : DB) :
    Except Err (List ReviewDoc) :=
  runList 50 200 (fun rv => rv.restaurant_id == restaurant_id) db.reviews limit?

/-- The reservation filter of `list_reservations` (`main.py:196-198`): always
the restaurant id; the `status` clause only when the parameter is truthy. -/
def reservationPred (restaurant_id : String) (status : Option String)
    (rv : ReservationDoc) : Bool :=
  rv.restaurant_id == restaurant_id &&
  (match status with
   | none => true
   | some s => if s == "" then true else rv.status == s)

/-- `GET /restaurants/{restaurant_id}/reservations` (`main.py:194-200`): limit
`Query(100, le=500)`. -/
def list_reservations (restaurant_id : String) (status : Option String)
    (limit? : Option Nat) (db : DB) : Except Err (List ReservationDoc) :=
  runList 100 500 (reservationPred restaurant_id status) db.reservations limit?

/-- Lexicographic order on character lists, as BSON compares strings (UTF-8
code-unit order coincides with code-point order). -/
def lexLe : List Char → List Char → Bool
  | [], _ => true
  | _ :: _, [] => false
  | a :: as, b :: bs => decide (a < b) || (a == b && lexLe as bs)

/-- The event filter of `list_events` (`main.py:225-234`): the `city` regex
clause, and for `upcoming_only` the clause `{"date": {"$gte": today}}` — a
plain lexicographic string comparison against today's ISO date string (passed
here as the `today` parameter, since the clock is not modelled). -/
def eventPred (city : Option String) (upcoming_only : Bool) (today : String)
    (e : EventDoc) : Bool :=
  cityPred city e.city && (!upcoming_only || lexLe today.data e.date.data)

/-- `GET /events` (`main.py:223-236`): limit `Query(50, le=200)`. -/
def list_events (city : Option String) (upcoming_only : Bool) (today : String)
    (limit? : Option Nat) (db : DB) : Except Err (List EventDoc) :=
  runList 50 200 (eventPred city upcoming_only today) db.events limit?

/-- `GET /restaurants/{restaurant_id}/discounts` (`main.py:249-255`): the
`active` clause is added whenever the parameter is supplied (`is not None`);
limit `Query(50, le=200)`. -/
def list_discounts (restaurant_id : String) (active : Option Bool)
    (limit? : Option Nat) (db : DB) : Except Err (List DiscountDoc) :=
  runList 50 200
    (fun d => d.restaurant_id == restaurant_id &&
      (match active with | none => true | some a => d.active == a))
    db.discounts limit?

/-- `GET /restaurants/{restaurant_id}/campaigns` (`main.py:268-274`): limit
`Query(50, le=200)`. -/
def list_campaigns (restaurant_id : String) (active : Option Bool)
    (limit? : Option Nat) (db : DB) : Except Err (List CampaignDoc) :=
  runList 50 200
    (fun c => c.restaurant_id == restaurant_id &&
      (match active with | none => true | some a => c.active == a))
    db.campaigns limit?

/-- The spec's description of the degenerate translation: whitespace-delimited
tokens joined by single spaces. -/
def normalizeWhitespace (s : String) : String :=
  String.intercalate " " (pySplit s)

lemma translateLoop_eq (base : List (String × String)) :
    ∀ (toks out : List String),
      translateLoop base out toks = out ++ toks.map (translateToken base) := by
  intro toks
  induction toks with
  | nil => intro out; simp [translateLoop]
  | cons t rest ih =>
      intro out
      simp [translateLoop, ih, List.append_assoc]

lemma lookup_mem_values {α β : Type} [BEq α] :
    ∀ (l : List (α × β)) (k : α) (v : β), l.lookup k = some v → v ∈ l.map Prod.snd := by
  intro l
  induction l with
  | nil => intro k v h; simp [List.lookup] at h
  | cons hd tl ih =>
      intro k v h
      obtain ⟨k0, v0⟩ := hd
      by_cases hb : (k == k0) = true
      · simp [List.lookup, hb] at h
        simp [h]
      · simp [List.lookup] at h
        rw [Bool.not_eq_true] at hb
        rw [hb] at h
        simp at h
        exact List.mem_cons_of_mem _ (ih k v h)

lemma baseFor_en : baseFor "en" = [] := rfl

lemma baseFor_unknown (t : String) (h1 : t ≠ "en") (h2 : t ≠ "sq") (h3 : t ≠ "it")
    (h4 : t ≠ "de") (h5 : t ≠ "fr") : baseFor t = [] := by
  have e1 : (t == "en") = false := beq_eq_false_iff_ne.mpr h1
  have e2 : (t == "sq") = false := beq_eq_false_iff_ne.mpr h2
  have e3 : (t == "it") = false := beq_eq_false_iff_ne.mpr h3
  have e4 : (t == "de") = false := beq_eq_false_iff_ne.mpr h4
  have e5 : (t == "fr") = false := beq_eq_false_iff_ne.mpr h5
  simp [baseFor, menuDict, List.lookup, e1, e2, e3, e4, e5]

lemma baseFor_cases (t : String) :
    baseFor t = [] ∨ baseFor t = sqDict ∨ baseFor t = itDict ∨
    baseFor t = deDict ∨ baseFor t = frDict := by
  by_cases h1 : t = "en"
  · subst h1; exact Or.inl rfl
  by_cases h2 : t = "sq"
  · subst h2; exact Or.inr (Or.inl rfl)
  by_cases h3 : t = "it"
  · subst h3; exact Or.inr (Or.inr (Or.inl rfl))
  by_cases h4 : t = "de"
  · subst h4; exact Or.inr (Or.inr (Or.inr (Or.inl rfl)))
  by_cases h5 : t = "fr"
  · subst h5; exact Or.inr (Or.inr (Or.inr (Or.inr rfl)))
  exact Or.inl (baseFor_unknown t h1 h2 h3 h4 h5)

lemma baseFor_values_ne (tgt k v : String) (h : (baseFor tgt).lookup k = some v) :
    v ≠ "" := by
  have hmem : v ∈ (baseFor tgt).map Prod.snd := lookup_mem_values _ k v h
  rcases baseFor_cases tgt with hb | hb | hb | hb | hb <;> rw [hb] at hmem
  · simp at hmem
  · fin_cases hmem <;> decide
  · fin_cases hmem <;> decide
  · fin_cases hmem <;> decide
  · fin_cases hmem <;> decide

lemma translateToken_getD (base : List (String × String)) (tok : String)
    (hne : ∀ k v, base.lookup k = some v → v ≠ "") :
    translateToken base tok = (base.lookup (stripPunct (toLowerStr tok))).getD tok := by
  unfold translateToken
  cases h : base.lookup (stripPunct (toLowerStr tok)) with
  | none => rfl
  | some v =>
      have : v ≠ "" := hne _ _ h
      simp [beq_eq_false_iff_ne.mpr this]

lemma translate_text_empty_base (text : String) :
    translate_text [] text = normalizeWhitespace text := by
  unfold translate_text normalizeWhitespace
  by_cases h : text = ""
  · subst h; decide
  · rw [if_neg (by simpa using h), translateLoop_eq]
    rw [show translateToken ([] : List (String × String)) = id from funext fun _ => rfl]
    simp

/-- C3.  For every text and target language, `translate_text` maps each
whitespace token independently: a token whose lowercased, punctuation-stripped
form is a key of the per-language table is replaced by that key's translation,
every other token passes through unchanged, tokens keep their relative
positions, and an unknown target language code selects the empty table. -/
theorem spec_C3 (tgt text : String) :
    translate_text (baseFor tgt) text
      = String.intercalate " "
          ((pySplit text).map (fun tok =>
            (((baseFor tgt).lookup (stripPunct (toLowerStr tok))).getD tok)))
    ∧ (tgt ∉ (["en", "sq", "it", "de", "fr"] : List String) → baseFor tgt = []) := by
  constructor
  · unfold translate_text
    by_cases h : text = ""
    · subst h; rfl
    · rw [if_neg (by simpa using h), translateLoop_eq]
      congr 1
      simp only [List.nil_append]
      exact List.map_congr_left fun tok _ =>
        translateToken_getD (baseFor tgt) tok (baseFor_values_ne tgt)
  · intro h
    simp only [List.mem_cons, List.mem_singleton, not_or] at h
    obtain ⟨h1, h2, h3, h4, h5, _⟩ := h
    exact baseFor_unknown tgt h1 h2 h3 h4 h5

/-- Witness for C3 at the spec's own example and at an unknown language code. -/
theorem spec_C3_witness :
    translate_text (baseFor "it") "Grilled Chicken"
      = String.intercalate " "
          ((pySplit "Grilled Chicken").map (fun tok =>
            (((baseFor "it").lookup (stripPunct (toLowerStr tok))).getD tok)))
    ∧ baseFor "xx" = [] :=
  ⟨(spec_C3 "it" "Grilled Chicken").1, (spec_C3 "xx" "x").2 (by decide)⟩

/-- C10.  For target `"en"`, or any target whose lowercased form is none of
`sq`, `it`, `de`, `fr`, the per-text translation is whitespace normalization:
the text's whitespace tokens joined by single spaces (hence empty text maps to
empty text). -/
theorem spec_C10 (tgt text : String)
    (h : toLowerStr tgt = "en" ∨ toLowerStr tgt ∉ (["sq", "it", "de", "fr"] : List String)) :
    translate_text (baseFor (toLowerStr tgt)) text = normalizeWhitespace text := by
  have hbase : baseFor (toLowerStr tgt) = [] := by
    rcases h with h | h
    · rw [h]; exact baseFor_en
    · by_cases he : toLowerStr tgt = "en"
      · rw [he]; exact baseFor_en
      · simp only [List.mem_cons, List.mem_singleton, not_or] at h
        obtain ⟨h2, h3, h4, h5, _⟩ := h
        exact baseFor_unknown _ he h2 h3 h4 h5
  rw [hbase]
  exact translate_text_empty_base text

/-- Witness for C10: an uppercase `"EN"` target normalizes inner runs of
whitespace and strips the outer ones. -/
theorem spec_C10_witness :
    translate_text (baseFor (toLowerStr "EN")) " a  b " = normalizeWhitespace " a  b " :=
  spec_C10 "EN" " a  b " (Or.inl (by decide))

lemma lookup_setKey (it : Item) (k : String) (v : Val) :
    ∀ k2, (setKey it k v).lookup k2 = if k2 == k then some v else it.lookup k2 := by
  induction it with
  | nil =>
      intro k2
      by_cases h : (k2 == k) = true <;> simp [setKey, List.lookup, h]
  | cons hd tl ih =>
      intro k2
      obtain ⟨k0, v0⟩ := hd
      by_cases h : (k0 == k) = true
      · have hk : k0 = k := by simpa using h
        subst hk
        by_cases h2 : (k2 == k0) = true <;> simp [setKey, List.lookup, h2]
      · have hne : (k0 == k) = false := by simpa using h
        by_cases h2 : (k2 == k0) = true
        · have hk2 : k2 = k0 := by simpa using h2
          subst hk2
          have : (k2 == k) = false := hne
          simp [setKey, List.lookup, hne, h2, this]
        · have h2f : (k2 == k0) = false := by simpa using h2
          simp [setKey, List.lookup, hne, h2f, ih]

/-- C9.  `translate_menu` maps every item independently; each output item keeps
every key other than `name`, `description` and `lang` unchanged, always carries
`name` and `description` (the translation of the stringified input value, or of
`""` when the key is missing), and carries `lang` set to the lowercased target
code, overwriting any input `lang`. -/
theorem spec_C9 (items : List Item) (target_lang tgt : String) (it : Item)
    (k : String) (hk1 : k ≠ "name") (hk2 : k ≠ "description") (hk3 : k ≠ "lang") :
    (translate_menu items target_lang).1 = items.map (translateItem (toLowerStr target_lang))
    ∧ (translate_menu items target_lang).2 = toLowerStr target_lang
    ∧ (translateItem tgt it).lookup k = it.lookup k
    ∧ (translateItem tgt it).lookup "name"
        = some (.vstr (translate_text (baseFor tgt)
            (pyStr ((it.lookup "name").getD (.vstr "")))))
    ∧ (translateItem tgt it).lookup "description"
        = some (.vstr (translate_text (baseFor tgt)
            (pyStr ((it.lookup "description").getD (.vstr "")))))
    ∧ (translateItem tgt it).lookup "lang" = some (.vstr tgt) := by
  refine ⟨rfl, rfl, ?_, ?_, ?_, ?_⟩
  · have e1 : (k == "lang") = false := beq_eq_false_iff_ne.mpr hk3
    have e2 : (k == "description") = false := beq_eq_false_iff_ne.mpr hk2
    have e3 : (k == "name") = false := beq_eq_false_iff_ne.mpr hk1
    simp [translateItem, lookup_setKey, e1, e2, e3]
  · simp [translateItem, lookup_setKey]
  · simp [translateItem, lookup_setKey]
  · simp [translateItem, lookup_setKey]

/-- Witness for C9: an item with an extra `price` key and a stale `lang`. -/
theorem spec_C9_witness :
    (translate_menu [[("price", Val.vint 7)]] "IT").1
        = [[("price", Val.vint 7)]].map (translateItem (toLowerStr "IT"))
    ∧ (translate_menu [[("price", Val.vint 7)]] "IT").2 = toLowerStr "IT"
    ∧ (translateItem "it" [("price", Val.vint 7), ("lang", Val.vstr "de")]).lookup "price"
        = ([("price", Val.vint 7), ("lang", Val.vstr "de")] : Item).lookup "price"
    ∧ (translateItem "it" [("price", Val.vint 7), ("lang", Val.vstr "de")]).lookup "name"
        = some (.vstr (translate_text (baseFor "it")
            (pyStr ((([("price", Val.vint 7), ("lang", Val.vstr "de")] : Item).lookup
              "name").getD (.vstr "")))))
    ∧ (translateItem "it" [("price", Val.vint 7), ("lang", Val.vstr "de")]).lookup "description"
        = some (.vstr (translate_text (baseFor "it")
            (pyStr ((([("price", Val.vint 7), ("lang", Val.vstr "de")] : Item).lookup
              "description").getD (.vstr "")))))
    ∧ (translateItem "it" [("price", Val.vint 7), ("lang", Val.vstr "de")]).lookup "lang"
        = some (.vstr "it") :=
  spec_C9 [[("price", Val.vint 7)]] "IT" "it"
    [("price", Val.vint 7), ("lang", Val.vstr "de")] "price"
    (by decide) (by decide) (by decide)

lemma updateFirst_nomatch {α : Type} (m : α → Bool) (f : α → α) :
    ∀ l : List α, (∀ x ∈ l, m x = false) → updateFirst m f l = (l, 0) := by
  intro l
  induction l with
  | nil => intro _; rfl
  | cons x xs ih =>
      intro h
      have hx : m x = false := h x (List.mem_cons_self x xs)
      simp [updateFirst, hx, ih (fun y hy => h y (List.mem_cons_of_mem x hy))]

lemma updateFirst_count_one {α : Type} (m : α → Bool) (f : α → α) :
    ∀ l : List α, (∃ x ∈ l, m x = true) → (updateFirst m f l).2 = 1 := by
  intro l
  induction l with
  | nil => rintro ⟨x, hx, _⟩; simp at hx
  | cons x xs ih =>
      rintro ⟨y, hy, hmy⟩
      by_cases hx : m x = true
      · simp [updateFirst, hx]
      · rcases List.mem_cons.mp hy with rfl | hy2
        · exact absurd hmy hx
        · simp [updateFirst, hx, ih ⟨y, hy2, hmy⟩]

lemma updateFirst_map (key : α → String) (k : String) (f : α → α) :
    ∀ l : List α, (l.map key).Nodup →
      (updateFirst (fun x => key x == k) f l).1
        = l.map (fun x => if key x == k then f x else x) := by
  intro l
  induction l with
  | nil => intro _; rfl
  | cons x xs ih =>
      intro hnd
      rw [List.map_cons, List.nodup_cons] at hnd
      obtain ⟨hnotmem, hndtl⟩ := hnd
      by_cases hx : (key x == k) = true
      · have hk : key x = k := by simpa using hx
        have htl : ∀ y ∈ xs, (key y == k) = false := by
          intro y hy
          have : key y ≠ k := by
            intro hcon
            exact hnotmem (hk ▸ hcon ▸ List.mem_map_of_mem key hy)
          simpa using this
        have : xs.map (fun y => if (key y == k) = true then f y else y) = xs :=
          List.map_congr_left (fun y hy => by simp [htl y hy]) |>.trans (List.map_id xs)
      -- the head is rewritten, the tail must stay untouched
        simp only [updateFirst, hx, if_true, List.map_cons]
        rw [this]
      · simp only [updateFirst, hx, if_false, List.map_cons, Bool.false_eq_true]
        rw [ih hndtl]

lemma updateFirst_key_preserved {α : Type} (key : α → String) (m : α → Bool)
    (f : α → α) (hf : ∀ x, key (f x) = key x) :
    ∀ l : List α, ((updateFirst m f l).1).map key = l.map key := by
  intro l
  induction l with
  | nil => rfl
  | cons x xs ih =>
      by_cases hx : m x = true
      · simp [updateFirst, hx, hf]
      · simp [updateFirst, hx, ih]

/-- Amended C2.  For a malformed id: `GET /restaurants/{id}` fails with 400 and
no store call; the two PATCH handlers fail with 400 and no store call only when
the update set is non-empty, while an empty update set returns
`{updated: false}` with no store call and no error; `POST
/restaurants/{id}/reviews` (with matching body id) first inserts the review and
runs the aggregation, and only then fails with 400, leaving the review
persisted and the restaurant not updated. -/
theorem spec_C2_amended (rid : String) (h : isValidObjectId rid = false) :
    (∀ db, get_restaurant rid db = (.error ⟨400, "Invalid id format"⟩, []))
    ∧ (∀ (p : RestaurantPatch) (now : ℚ) (db : DB), p.isEmpty = false →
        update_restaurant rid p now db = (.error ⟨400, "Invalid id format"⟩, db, []))
    ∧ (∀ (p : RestaurantPatch) (now : ℚ) (db : DB), p.isEmpty = true →
        update_restaurant rid p now db = (.ok false, db, []))
    ∧ (∀ (p : ReservationPatch) (now : ℚ) (db : DB), p.isEmpty = false →
        update_reservation rid p now db = (.error ⟨400, "Invalid id format"⟩, db, []))
    ∧ (∀ (p : ReservationPatch) (now : ℚ) (db : DB), p.isEmpty = true →
        update_reservation rid p now db = (.ok false, db, []))
    ∧ (∀ (payload : ReviewDoc) (db : DB), payload.restaurant_id = rid →
        create_review rid payload db
          = (.error ⟨400, "Invalid id format"⟩,
             { db with reviews := db.reviews ++ [payload] },
             [.insert "review", .aggregate "review"])) := by
  have herr : ensure_object_id rid = .error ⟨400, "Invalid id format"⟩ := by
    simp [ensure_object_id, h]
  refine ⟨?_, ?_, ?_, ?_, ?_, ?_⟩
  · intro db; simp [get_restaurant, herr]
  · intro p now db hp; simp [update_restaurant, hp, herr]
  · intro p now db hp; simp [update_restaurant, hp]
  · intro p now db hp; simp [update_reservation, hp, herr]
  · intro p now db hp; simp [update_reservation, hp]
  · intro payload db hpay
    have hne : (rid != payload.restaurant_id) = false := by simp [hpay]
    have hfilter :
        reviewsFor { db with reviews := db.reviews ++ [payload] } rid
          = reviewsFor db rid ++ [payload] := by
      simp [reviewsFor, List.filter_append, hpay]
    have hagg :
        update_avg_rating rid { db with reviews := db.reviews ++ [payload] }
          = (.error ⟨400, "Invalid id format"⟩,
             { db with reviews := db.reviews ++ [payload] }, [.aggregate "review"]) := by
      simp [update_avg_rating, hfilter, herr]
    simp [create_review, hne, hagg]

/-- The empty restaurant patch (a PATCH body providing no field). -/
def emptyRPatch : RestaurantPatch :=
  ⟨none, none, none, none, none, none, none, none, none⟩

/-- Concrete review payload for the C2 counterexample, targeting a malformed
restaurant id. -/
def payC2 : ReviewDoc := ⟨"zzz", "u", none, 5, none, true⟩

/-- An empty store for the C2 counterexample. -/
def dbC2 : DB := ⟨[], [], [], [], [], []⟩

/-- Counterexample to C2 as stated: with the malformed id `"zzz"`,
`POST /restaurants/zzz/reviews` does fail with 400 — but only after inserting
the review document and running the aggregation, so store calls are made and a
document is written; and `PATCH /restaurants/zzz` with an empty body does not
fail at all. -/
theorem spec_C2_counterexample :
    (create_review "zzz" payC2 dbC2).1 = .error ⟨400, "Invalid id format"⟩
    ∧ (create_review "zzz" payC2 dbC2).2.1.reviews = [payC2]
    ∧ (create_review "zzz" payC2 dbC2).2.2 = [.insert "review", .aggregate "review"]
    ∧ update_restaurant "zzz" emptyRPatch 0 dbC2 = (.ok false, dbC2, []) := by
  refine ⟨by decide, by decide, by decide, by decide⟩

/-- Witness for the amended C2 at the malformed id `"zzz"`. -/
theorem spec_C2_witness :
    get_restaurant "zzz" dbC2 = (.error ⟨400, "Invalid id format"⟩, [])
    ∧ update_reservation "zzz" ⟨some "confirmed", none⟩ 0 dbC2
        = (.error ⟨400, "Invalid id format"⟩, dbC2, []) :=
  ⟨(spec_C2_amended "zzz" (by decide)).1 dbC2,
   (spec_C2_amended "zzz" (by decide)).2.2.2.1 ⟨some "confirmed", none⟩ 0 dbC2 (by decide)⟩

/-- C8.  The two PATCH handlers: an empty update set is a no-op
returning `{updated: false}` with no store call; a non-empty update set on an
existing target sets exactly the provided fields plus the server-set
`updated_at`, leaves every other field and every other document (and
collection) unchanged, and returns `{updated: true}`; a non-empty update set on
a missing target fails with 404 and changes nothing. -/
theorem spec_C8 (now : ℚ) (rid : String) (p : RestaurantPatch)
    (pq : ReservationPatch) (db : DB) :
    (p.isEmpty = true → update_restaurant rid p now db = (.ok false, db, []))
    ∧ (p.isEmpty = false → isValidObjectId rid = true →
        (db.restaurants.map (fun r => r.oid)).Nodup →
        (∃ r0 ∈ db.restaurants, r0.oid = toLowerStr rid) →
        update_restaurant rid p now db
          = (.ok true,
             { db with restaurants := db.restaurants.map (fun r =>
                 if r.oid == toLowerStr rid then applyRestaurantPatch p now r else r) },
             [.updateOne "restaurant"]))
    ∧ (p.isEmpty = false → isValidObjectId rid = true →
        (∀ r0 ∈ db.restaurants, r0.oid ≠ toLowerStr rid) →
        update_restaurant rid p now db
          = (.error ⟨404, "Restaurant not found"⟩, db, [.updateOne "restaurant"]))
    ∧ (∀ r : RestaurantDoc,
        (applyRestaurantPatch p now r).oid = r.oid
        ∧ (applyRestaurantPatch p now r).name = p.name.getD r.name
        ∧ (applyRestaurantPatch p now r).address = p.address.getD r.address
        ∧ (applyRestaurantPatch p now r).city = p.city.getD r.city
        ∧ (applyRestaurantPatch p now r).cuisine = p.cuisine.getD r.cuisine
        ∧ (applyRestaurantPatch p now r).accepts_reservations
            = p.accepts_reservations.getD r.accepts_reservations
        ∧ (applyRestaurantPatch p now r).owner_id = r.owner_id
        ∧ (applyRestaurantPatch p now r).avg_rating = r.avg_rating
        ∧ (applyRestaurantPatch p now r).menu = r.menu
        ∧ (applyRestaurantPatch p now r).images = r.images
        ∧ (applyRestaurantPatch p now r).tourist_discounts = r.tourist_discounts
        ∧ (applyRestaurantPatch p now r).updated_at = some now)
    ∧ (pq.isEmpty = true → update_reservation rid pq now db = (.ok false, db, []))
    ∧ (pq.isEmpty = false → isValidObjectId rid = true →
        (db.reservations.map (fun r => r.oid)).Nodup →
        (∃ r0 ∈ db.reservations, r0.oid = toLowerStr rid) →
        update_reservation rid pq now db
          = (.ok true,
             { db with reservations := db.reservations.map (fun r =>
                 if r.oid == toLowerStr rid then applyReservationPatch pq now r else r) },
             [.updateOne "reservation"]))
    ∧ (pq.isEmpty = false → isValidObjectId rid = true →
        (∀ r0 ∈ db.reservations, r0.oid ≠ toLowerStr rid) →
        update_reservation rid pq now db
          = (.error ⟨404, "Reservation not found"⟩, db, [.updateOne "reservation"]))
    ∧ (∀ r : ReservationDoc,
        (applyReservationPatch pq now r).oid = r.oid
        ∧ (applyReservationPatch pq now r).restaurant_id = r.restaurant_id
        ∧ (applyReservationPatch pq now r).status = pq.status.getD r.status
        ∧ (applyReservationPatch pq now r).name = r.name
        ∧ (applyReservationPatch pq now r).email = r.email
        ∧ (applyReservationPatch pq now r).party_size = r.party_size
        ∧ (applyReservationPatch pq now r).date_time = r.date_time
        ∧ (applyReservationPatch pq now r).updated_at = some now) := by
  have hok : isValidObjectId rid = true →
      ensure_object_id rid = .ok (toLowerStr rid) := by
    intro hv; simp [ensure_object_id, hv]
  refine ⟨?_, ?_, ?_, ?_, ?_, ?_, ?_, ?_⟩
  · intro hp; simp [update_restaurant, hp]
  · rintro hp hv hnd ⟨r0, hr0m, hr0oid⟩
    have hcnt : (updateFirst (fun d => d.oid == toLowerStr rid)
        (applyRestaurantPatch p now) db.restaurants).2 = 1 :=
      updateFirst_count_one _ _ _ ⟨r0, hr0m, by simp [hr0oid]⟩
    have hmap := updateFirst_map (fun r : RestaurantDoc => r.oid) (toLowerStr rid)
      (applyRestaurantPatch p now) db.restaurants hnd
    simp [update_restaurant, hp, hok hv, hcnt, hmap]
  · intro hp hv hno
    have hnm : updateFirst (fun d => d.oid == toLowerStr rid)
        (applyRestaurantPatch p now) db.restaurants = (db.restaurants, 0) :=
      updateFirst_nomatch _ _ _ (fun x hx => by simpa using hno x hx)
    simp [update_restaurant, hp, hok hv, hnm]
  · intro r
    refine ⟨rfl, rfl, rfl, rfl, rfl, rfl, rfl, rfl, rfl, rfl, rfl, rfl⟩
  · intro hp; simp [update_reservation, hp]
  · rintro hp hv hnd ⟨r0, hr0m, hr0oid⟩
    have hcnt : (updateFirst (fun d => d.oid == toLowerStr rid)
        (applyReservationPatch pq now) db.reservations).2 = 1 :=
      updateFirst_count_one _ _ _ ⟨r0, hr0m, by simp [hr0oid]⟩
    have hmap := updateFirst_map (fun r : ReservationDoc => r.oid) (toLowerStr rid)
      (applyReservationPatch pq now) db.reservations hnd
    simp [update_reservation, hp, hok hv, hcnt, hmap]
  · intro hp hv hno
    have hnm : updateFirst (fun d => d.oid == toLowerStr rid)
        (applyReservationPatch pq now) db.reservations = (db.reservations, 0) :=
      updateFirst_nomatch _ _ _ (fun x hx => by simpa using hno x hx)
    simp [update_reservation, hp, hok hv, hnm]
  · intro r
    refine ⟨rfl, rfl, rfl, rfl, rfl, rfl, rfl, rfl⟩

/-- A restaurant document used by the C8 witness. -/
def rW8 : RestaurantDoc :=
  ⟨"aaaaaaaaaaaaaaaaaaaaaaaa", none, "Old", "Addr", "Tirana", [], none, none,
   none, 0, none, [], [], true, [], none⟩

/-- A one-restaurant store for the C8 witness. -/
def dbW8 : DB := ⟨[rW8], [], [], [], [], []⟩

/-- A patch providing only the `name` field. -/
def pW8 : RestaurantPatch :=
  ⟨some "X", none, none, none, none, none, none, none, none⟩

/-- Witness for C8: empty patch is a no-op, and a name-only patch on an
existing restaurant rewrites exactly that document. -/
theorem spec_C8_witness :
    update_restaurant "aaaaaaaaaaaaaaaaaaaaaaaa" emptyRPatch 7 dbW8 = (.ok false, dbW8, [])
    ∧ update_restaurant "aaaaaaaaaaaaaaaaaaaaaaaa" pW8 7 dbW8
        = (.ok true,
           { dbW8 with restaurants := dbW8.restaurants.map (fun r =>
               if r.oid == toLowerStr "aaaaaaaaaaaaaaaaaaaaaaaa"
               then applyRestaurantPatch pW8 7 r else r) },
           [.updateOne "restaurant"]) :=
  ⟨(spec_C8 7 "aaaaaaaaaaaaaaaaaaaaaaaa" emptyRPatch ⟨none, none⟩ dbW8).1 (by decide),
   (spec_C8 7 "aaaaaaaaaaaaaaaaaaaaaaaa" pW8 ⟨none, none⟩ dbW8).2.1 (by decide) (by decide)
     (by decide) ⟨rW8, by decide, by decide⟩⟩

lemma reviewsFor_insert (db : DB) (rid : String) (payload : ReviewDoc)
    (hpay : payload.restaurant_id = rid) :
    reviewsFor { db with reviews := db.reviews ++ [payload] } rid
      = reviewsFor db rid ++ [payload] := by
  simp [reviewsFor, List.filter_append, hpay]

/-- The `$set` on `avg_rating` performed at the end of `create_review`
(`main.py:169`), as a function of the value written. -/
def avgWrite (rid : String) (v : ℚ) (l : List RestaurantDoc) : List RestaurantDoc :=
  (updateFirst (fun d => d.oid == toLowerStr rid)
    (fun d => { d with avg_rating := v }) l).1

lemma create_review_ok (rid : String) (payload : ReviewDoc) (db : DB)
    (hpay : payload.restaurant_id = rid) (hv : isValidObjectId rid = true) :
    create_review rid payload db
      = (.ok (toString db.reviews.length),
         { db with
           reviews := db.reviews ++ [payload],
           restaurants := avgWrite rid
             (pyRound2 (ratingMean ((reviewsFor db rid ++ [payload]).map
               (fun rv => rv.rating)))) db.restaurants },
         [.insert "review", .aggregate "review", .updateOne "restaurant"]) := by
  have hne : (rid != payload.restaurant_id) = false := by simp [hpay]
  have hfilter := reviewsFor_insert db rid payload hpay
  have hagg :
      update_avg_rating rid { db with reviews := db.reviews ++ [payload] }
        = (.ok (),
           { db with
             reviews := db.reviews ++ [payload],
             restaurants := avgWrite rid
               (pyRound2 (ratingMean ((reviewsFor db rid ++ [payload]).map
                 (fun rv => rv.rating)))) db.restaurants },
           [.aggregate "review", .updateOne "restaurant"]) := by
    simp [update_avg_rating, hfilter, ensure_object_id, hv, avgWrite]
  simp [create_review, hne, hagg]

lemma create_review_reviews (rid : String) (payload : ReviewDoc) (db : DB)
    (hpay : payload.restaurant_id = rid) (hv : isValidObjectId rid = true) :
    (create_review rid payload db).2.1.reviews = db.reviews ++ [payload] := by
  rw [create_review_ok rid payload db hpay hv]

lemma create_review_oids (rid : String) (payload : ReviewDoc) (db : DB)
    (hpay : payload.restaurant_id = rid) (hv : isValidObjectId rid = true) :
    ((create_review rid payload db).2.1.restaurants).map (fun r => r.oid)
      = db.restaurants.map (fun r => r.oid) := by
  rw [create_review_ok rid payload db hpay hv]
  exact updateFirst_key_preserved (fun r : RestaurantDoc => r.oid)
    (fun d => d.oid == toLowerStr rid)
    (fun d => { d with avg_rating := pyRound2 (ratingMean
      ((reviewsFor db rid ++ [payload]).map (fun rv => rv.rating))) })
    (fun x => rfl) db.restaurants

lemma updateFirst_avg (v : ℚ) (k : String) (l : List RestaurantDoc)
    (hnd : (l.map (fun r => r.oid)).Nodup) :
    ∀ r ∈ (updateFirst (fun d => d.oid == k)
        (fun d => { d with avg_rating := v }) l).1,
      r.oid = k → r.avg_rating = v := by
  intro r hr hk
  rw [updateFirst_map (fun d : RestaurantDoc => d.oid) k _ l hnd] at hr
  obtain ⟨x, hx, hxr⟩ := List.mem_map.mp hr
  by_cases hxk : (x.oid == k) = true
  · rw [if_pos hxk] at hxr
    rw [← hxr]
  · rw [if_neg (by simpa using hxk)] at hxr
    subst hxr
    exact absurd (by simpa using hk) hxk

lemma create_review_avg (rid : String) (payload : ReviewDoc) (db : DB)
    (hpay : payload.restaurant_id = rid) (hv : isValidObjectId rid = true)
    (hnd : (db.restaurants.map (fun r => r.oid)).Nodup) :
    ∀ r ∈ (create_review rid payload db).2.1.restaurants, r.oid = toLowerStr rid →
      r.avg_rating
        = pyRound2 (ratingMean
            ((reviewsFor (create_review rid payload db).2.1 rid).map
              (fun rv => rv.rating))) := by
  intro r hr hk
  rw [create_review_ok rid payload db hpay hv] at hr ⊢
  have hrf : ∀ rs, reviewsFor
      { db with reviews := db.reviews ++ [payload], restaurants := rs } rid
      = reviewsFor db rid ++ [payload] := by
    intro rs
    simp [reviewsFor, List.filter_append, hpay]
  rw [hrf]
  exact updateFirst_avg _ _ db.restaurants hnd r hr hk

lemma createReviews_reviewsFor (rid user : String) :
    ∀ (ratings : List Int) (db : DB), isValidObjectId rid = true →
      reviewsFor (createReviews rid user ratings db) rid
        = reviewsFor db rid
            ++ ratings.map (fun v => (⟨rid, user, none, v, none, true⟩ : ReviewDoc)) := by
  intro ratings
  induction ratings with
  | nil => intro db _; simp [createReviews]
  | cons v rest ih =>
      intro db hv
      have hstep : createReviews rid user (v :: rest) db
          = createReviews rid user rest
              ((create_review rid ⟨rid, user, none, v, none, true⟩ db).2.1) := rfl
      rw [hstep, ih _ hv]
      have hone : reviewsFor ((create_review rid ⟨rid, user, none, v, none, true⟩ db).2.1) rid
          = reviewsFor db rid ++ [⟨rid, user, none, v, none, true⟩] := by
        rw [create_review_ok rid _ db rfl hv]
        simp [reviewsFor, List.filter_append]
      rw [hone]
      simp

lemma createReviews_oids (rid user : String) :
    ∀ (ratings : List Int) (db : DB), isValidObjectId rid = true →
      ((createReviews rid user ratings db).restaurants).map (fun r => r.oid)
        = db.restaurants.map (fun r => r.oid) := by
  intro ratings
  induction ratings with
  | nil => intro db _; rfl
  | cons v rest ih =>
      intro db hv
      have hstep : createReviews rid user (v :: rest) db
          = createReviews rid user rest
              ((create_review rid ⟨rid, user, none, v, none, true⟩ db).2.1) := rfl
      rw [hstep, ih _ hv, create_review_oids rid _ db rfl hv]

lemma createReviews_avg (rid user : String) :
    ∀ (ratings : List Int) (db : DB), ratings ≠ [] → isValidObjectId rid = true →
      (db.restaurants.map (fun r => r.oid)).Nodup →
      ∀ r ∈ (createReviews rid user ratings db).restaurants, r.oid = toLowerStr rid →
        r.avg_rating
          = pyRound2 (ratingMean
              ((reviewsFor (createReviews rid user ratings db) rid).map
                (fun rv => rv.rating))) := by
  intro ratings
  induction ratings with
  | nil => intro db hne; exact absurd rfl hne
  | cons v rest ih =>
      intro db _ hv hnd
      cases rest with
      | nil =>
          exact create_review_avg rid ⟨rid, user, none, v, none, true⟩ db rfl hv hnd
      | cons v2 rest2 =>
          have hstep : createReviews rid user (v :: v2 :: rest2) db
              = createReviews rid user (v2 :: rest2)
                  ((create_review rid ⟨rid, user, none, v, none, true⟩ db).2.1) := rfl
          rw [hstep]
          refine ih _ (by simp) hv ?_
          rw [create_review_oids rid _ db rfl hv]
          exact hnd

/-- C1.  After every successful review creation the target restaurant's
`avg_rating` equals the 2-decimal rounding of the arithmetic mean of the
ratings of all stored reviews for that restaurant; for a whole sequence of N
creations with ratings r1..rN starting from a store with no reviews for the
restaurant, the final `avg_rating` is `round(mean(r1..rN), 2)`; and when the
grouping aggregation yields no rows the average update is skipped and the
store is unchanged. -/
theorem spec_C1 :
    (∀ (rid : String) (payload : ReviewDoc) (db : DB),
      payload.restaurant_id = rid → isValidObjectId rid = true →
      (db.restaurants.map (fun r => r.oid)).Nodup →
      (create_review rid payload db).1 = .ok (toString db.reviews.length)
      ∧ (create_review rid payload db).2.1.reviews = db.reviews ++ [payload]
      ∧ ∀ r ∈ (create_review rid payload db).2.1.restaurants,
          r.oid = toLowerStr rid →
          r.avg_rating
            = pyRound2 (ratingMean
                ((reviewsFor (create_review rid payload db).2.1 rid).map
                  (fun rv => rv.rating))))
    ∧ (∀ (rid user : String) (ratings : List Int) (db : DB),
        isValidObjectId rid = true →
        (db.restaurants.map (fun r => r.oid)).Nodup →
        reviewsFor db rid = [] → ratings ≠ [] →
        ∀ r ∈ (createReviews rid user ratings db).restaurants,
          r.oid = toLowerStr rid → r.avg_rating = pyRound2 (ratingMean ratings))
    ∧ (∀ (rid : String) (db : DB), reviewsFor db rid = [] →
        update_avg_rating rid db = (.ok (), db, [.aggregate "review"])) := by
  refine ⟨?_, ?_, ?_⟩
  · intro rid payload db hpay hv hnd
    refine ⟨?_, create_review_reviews rid payload db hpay hv,
      create_review_avg rid payload db hpay hv hnd⟩
    rw [create_review_ok rid payload db hpay hv]
  · intro rid user ratings db hv hnd hempty hne r hr hk
    have hmain := createReviews_avg rid user ratings db hne hv hnd r hr hk
    rw [createReviews_reviewsFor rid user ratings db hv, hempty] at hmain
    rw [List.nil_append, List.map_map,
      show ((fun rv : ReviewDoc => rv.rating) ∘
          (fun v => (⟨rid, user, none, v, none, true⟩ : ReviewDoc))) = id
        from funext fun _ => rfl,
      List.map_id] at hmain
    exact hmain
  · intro rid db h
    simp [update_avg_rating, h]

/-- The restaurant targeted by the C1 witness. -/
def rW1 : RestaurantDoc :=
  ⟨"aaaaaaaaaaaaaaaaaaaaaaaa", none, "R", "A", "Tirana", [], none, none, none,
   0, none, [], [], true, [], none⟩

/-- A store holding only that restaurant and no reviews. -/
def dbW1 : DB := ⟨[rW1], [], [], [], [], []⟩

/-- Witness for C1: on a store with no reviews for the restaurant the grouping
aggregation yields no rows and the average update is skipped. -/
theorem spec_C1_witness :
    update_avg_rating "aaaaaaaaaaaaaaaaaaaaaaaa" dbW1
      = (.ok (), dbW1, [.aggregate "review"]) :=
  spec_C1.2.2 "aaaaaaaaaaaaaaaaaaaaaaaa" dbW1 (by decide)

lemma take_of_len_le {α : Type} :
    ∀ (l : List α) (n : Nat), l.length ≤ n → l.take n = l := by
  intro l
  induction l with
  | nil => intro n _; simp
  | cons x xs ih =>
      intro n hn
      cases n with
      | zero => simp at hn
      | succ m => simpa using ih m (by simpa using hn)

lemma runList_none {α : Type} (dflt maxv : Nat) (pred : α → Bool) (docs : List α) :
    runList dflt maxv pred docs none = .ok ((docs.filter pred).take dflt) := rfl

lemma runList_some {α : Type} (dflt maxv : Nat) (pred : α → Bool) (docs : List α)
    (n : Nat) (h : n ≤ maxv) :
    runList dflt maxv pred docs (some n) = .ok ((docs.filter pred).take n) := by
  simp [runList, validateLimit, h, get_documents]

lemma runList_over {α : Type} (dflt maxv : Nat) (pred : α → Bool) (docs : List α)
    (n : Nat) (h : maxv < n) :
    runList dflt maxv pred docs (some n) = .error ⟨422, "limit validation"⟩ := by
  simp [runList, validateLimit, Nat.not_le_of_lt h]

lemma runList_default_eq {α : Type} (dflt maxv : Nat) (pred : α → Bool)
    (docs : List α) (h : dflt ≤ maxv) :
    runList dflt maxv pred docs none = runList dflt maxv pred docs (some dflt) := by
  rw [runList_none, runList_some _ _ _ _ _ h]

lemma runList_len {α : Type} (dflt maxv : Nat) (pred : α → Bool) (docs : List α)
    (limit? : Option Nat) (l : List α)
    (h : runList dflt maxv pred docs limit? = .ok l) :
    l.length ≤ limit?.getD dflt := by
  cases limit? with
  | none =>
      rw [runList_none] at h
      cases h
      simp [List.length_take_le]
  | some n =>
      by_cases hn : n ≤ maxv
      · rw [runList_some _ _ _ _ _ hn] at h
        cases h
        simp [List.length_take_le]
      · rw [runList_over _ _ _ _ _ (Nat.lt_of_not_le hn)] at h
        cases h

/-- Amended C4.  For every list endpoint the `limit` parameter is a hard cap on
the number of returned documents, with a per-endpoint maximum of 200
(restaurants, reviews, events, discounts, campaigns) or 500 (reservations); the
default when the client omits `limit` is 50 for every list endpoint except
reservations, whose default is 100. -/
theorem spec_C4_amended :
    (∀ city cuisine q lat lng radius_km (db : DB),
      list_restaurants city cuisine q lat lng radius_km none db
        = list_restaurants city cuisine q lat lng radius_km (some 50) db)
    ∧ (∀ city cuisine q lat lng radius_km n (db : DB), 200 < n →
        list_restaurants city cuisine q lat lng radius_km (some n) db
          = .error ⟨422, "limit validation"⟩)
    ∧ (∀ city cuisine q lat lng radius_km limit? (db : DB) l,
        list_restaurants city cuisine q lat lng radius_km limit? db = .ok l →
        l.length ≤ limit?.getD 50)
    ∧ (∀ rid (db : DB), list_reviews rid none db = list_reviews rid (some 50) db)
    ∧ (∀ rid n (db : DB), 200 < n →
        list_reviews rid (some n) db = .error ⟨422, "limit validation"⟩)
    ∧ (∀ rid limit? (db : DB) l, list_reviews rid limit? db = .ok l →
        l.length ≤ limit?.getD 50)
    ∧ (∀ rid status (db : DB),
        list_reservations rid status none db = list_reservations rid status (some 100) db)
    ∧ (∀ rid status n (db : DB), 500 < n →
        list_reservations rid status (some n) db = .error ⟨422, "limit validation"⟩)
    ∧ (∀ rid status limit? (db : DB) l,
        list_reservations rid status limit? db = .ok l → l.length ≤ limit?.getD 100)
    ∧ (∀ city upcoming today (db : DB),
        list_events city upcoming today none db
          = list_events city upcoming today (some 50) db)
    ∧ (∀ city upcoming today n (db : DB), 200 < n →
        list_events city upcoming today (some n) db = .error ⟨422, "limit validation"⟩)
    ∧ (∀ city upcoming today limit? (db : DB) l,
        list_events city upcoming today limit? db = .ok l → l.length ≤ limit?.getD 50)
    ∧ (∀ rid active (db : DB),
        list_discounts rid active none db = list_discounts rid active (some 50) db)
    ∧ (∀ rid active n (db : DB), 200 < n →
        list_discounts rid active (some n) db = .error ⟨422, "limit validation"⟩)
    ∧ (∀ rid active limit? (db : DB) l,
        list_discounts rid active limit? db = .ok l → l.length ≤ limit?.getD 50)
    ∧ (∀ rid active (db : DB),
        list_campaigns rid active none db = list_campaigns rid active (some 50) db)
    ∧ (∀ rid active n (db : DB), 200 < n →
        list_campaigns rid active (some n) db = .error ⟨422, "limit validation"⟩)
    ∧ (∀ rid active limit? (db : DB) l,
        list_campaigns rid active limit? db = .ok l → l.length ≤ limit?.getD 50) := by
  refine ⟨?_, ?_, ?_, ?_, ?_, ?_, ?_, ?_, ?_, ?_, ?_, ?_, ?_, ?_, ?_, ?_, ?_, ?_⟩
  · intro city cuisine q lat lng radius_km db
    exact runList_default_eq _ _ _ _ (by decide)
  · intro city cuisine q lat lng radius_km n db hn
    exact runList_over _ _ _ _ _ hn
  · intro city cuisine q lat lng radius_km limit? db l h
    exact runList_len _ _ _ _ _ _ h
  · intro rid db; exact runList_default_eq _ _ _ _ (by decide)
  · intro rid n db hn; exact runList_over _ _ _ _ _ hn
  · intro rid limit? db l h; exact runList_len _ _ _ _ _ _ h
  · intro rid status db; exact runList_default_eq _ _ _ _ (by decide)
  · intro rid status n db hn; exact runList_over _ _ _ _ _ hn
  · intro rid status limit? db l h; exact runList_len _ _ _ _ _ _ h
  · intro city upcoming today db; exact runList_default_eq _ _ _ _ (by decide)
  · intro city upcoming today n db hn; exact runList_over _ _ _ _ _ hn
  · intro city upcoming today limit? db l h; exact runList_len _ _ _ _ _ _ h
  · intro rid active db; exact runList_default_eq _ _ _ _ (by decide)
  · intro rid active n db hn; exact runList_over _ _ _ _ _ hn
  · intro rid active limit? db l h; exact runList_len _ _ _ _ _ _ h
  · intro rid active db; exact runList_default_eq _ _ _ _ (by decide)
  · intro rid active n db hn; exact runList_over _ _ _ _ _ hn
  · intro rid active limit? db l h; exact runList_len _ _ _ _ _ _ h

/-- One reservation document, repeated to populate the C4 counterexample. -/
def resC4 : ReservationDoc := ⟨"x", "r", "n", "e", 2, "dt", "pending", none, none⟩

/-- A store holding 60 reservations for restaurant id `"r"`. -/
def dbC4 : DB := ⟨[], [], List.replicate 60 resC4, [], [], []⟩

/-- Counterexample to C4 as stated: with `limit` omitted,
`GET /restaurants/r/reservations` returns 60 documents — more than the claimed
universal default cap of 50 — because `list_reservations` defaults to 100. -/
theorem spec_C4_counterexample :
    list_reservations "r" none none dbC4 = .ok (List.replicate 60 resC4)
    ∧ ¬ ((List.replicate 60 resC4).length ≤ 50) := by
  refine ⟨by decide, by decide⟩

/-- Witness for the amended C4: the reservations default is 100, the
restaurants cap rejects 300, and a supplied limit caps the response length. -/
theorem spec_C4_witness :
    list_reservations "r" none none dbC4 = list_reservations "r" none (some 100) dbC4
    ∧ list_restaurants none none none none none 5 (some 300) dbC4
        = .error ⟨422, "limit validation"⟩ :=
  ⟨spec_C4_amended.2.2.2.2.2.2.1 "r" none dbC4,
   spec_C4_amended.2.1 none none none none none 5 300 dbC4 (by decide)⟩

lemma subHere_iff : ∀ (p s : List Char), subHere p s = true ↔ ∃ r, s = p ++ r := by
  intro p
  induction p with
  | nil => intro s; simp [subHere]
  | cons p ps ih =>
      intro s
      cases s with
      | nil => simp [subHere]
      | cons c cs =>
          simp only [subHere, Bool.and_eq_true, beq_iff_eq, ih]
          constructor
          · rintro ⟨hpc, r, hr⟩
            exact ⟨r, by rw [hpc, hr]; rfl⟩
          · rintro ⟨r, hr⟩
            rw [List.cons_append] at hr
            injection hr with h1 h2
            exact ⟨h1.symm, r, h2⟩

lemma subFrom_iff : ∀ (s p : List Char), subFrom p s = true ↔ ∃ l r, s = l ++ p ++ r := by
  intro s
  induction s with
  | nil =>
      intro p
      simp only [subFrom, subHere_iff]
      constructor
      · rintro ⟨r, hr⟩; exact ⟨[], r, by simpa using hr⟩
      · rintro ⟨l, r, hr⟩
        rw [List.append_assoc] at hr
        rcases List.append_eq_nil.mp hr.symm with ⟨rfl, h2⟩
        exact ⟨r, by simpa using hr⟩
  | cons c cs ih =>
      intro p
      simp only [subFrom, Bool.or_eq_true, subHere_iff, ih]
      constructor
      · rintro (⟨r, hr⟩ | ⟨l, r, hr⟩)
        · exact ⟨[], r, by simpa using hr⟩
        · exact ⟨c :: l, r, by simp [hr]⟩
      · rintro ⟨l, r, hr⟩
        cases l with
        | nil => exact Or.inl ⟨r, by simpa using hr⟩
        | cons c2 l2 =>
            simp only [List.cons_append, List.append_assoc] at hr
            injection hr with h1 h2
            exact Or.inr ⟨l2, r, by simp [h2]⟩

lemma matchHere_lower : ∀ (p s : List Char), (∀ c ∈ p, c ≠ '.') →
    matchHere p s = subHere (p.map Char.toLower) (s.map Char.toLower) := by
  intro p
  induction p with
  | nil => intro s _; cases s <;> rfl
  | cons p ps ih =>
      intro s hdot
      have hp : (p == '.') = false :=
        beq_eq_false_iff_ne.mpr (hdot p (List.mem_cons_self p ps))
      cases s with
      | nil => simp [matchHere, subHere]
      | cons c cs =>
          simp [matchHere, subHere, chMatch, hp,
            ih cs (fun x hx => hdot x (List.mem_cons_of_mem p hx))]

lemma searchFrom_lower : ∀ (s p : List Char), (∀ c ∈ p, c ≠ '.') →
    searchFrom p s = subFrom (p.map Char.toLower) (s.map Char.toLower) := by
  intro s
  induction s with
  | nil =>
      intro p h
      simp [searchFrom, subFrom, matchHere_lower p [] h]
  | cons c cs ih =>
      intro p h
      simp only [searchFrom, List.map_cons, subFrom]
      rw [← List.map_cons, matchHere_lower p (c :: cs) h, ih p h, List.map_cons]

lemma containsCI_iff (pat s : String) :
    containsCheck pat s = true ↔ containsCI pat s := by
  unfold containsCheck containsCI
  exact subFrom_iff _ _

instance decContainsCI (pat s : String) : Decidable (containsCI pat s) :=
  decidable_of_iff _ (containsCI_iff pat s)

lemma regex_noDot (pat s : String) (h : noDot pat = true) :
    regexSearchCI pat s = true ↔ containsCI pat s := by
  have hd : ∀ c ∈ pat.toList, c ≠ '.' := by
    intro c hc
    have := List.all_eq_true.mp h c hc
    simpa using this
  unfold regexSearchCI containsCI
  rw [searchFrom_lower _ _ hd]
  exact subFrom_iff _ _

lemma containsCI_nil (s : String) : containsCI "" s :=
  ⟨[], s.toList.map Char.toLower, by simp⟩

lemma cityPred_iff (city : Option String) (s : String)
    (h : ∀ c, city = some c → noDot c = true) :
    cityPred city s = true ↔ (∀ c, city = some c → containsCI c s) := by
  cases city with
  | none => simp [cityPred]
  | some c =>
      simp only [cityPred]
      by_cases hc : (c == "") = true
      · have hc0 : c = "" := by simpa using hc
        subst hc0
        simp [containsCI_nil]
      · rw [if_neg hc]
        constructor
        · intro hr c2 hc2
          cases hc2
          exact (regex_noDot c s (h c rfl)).mp hr
        · intro hall
          exact (regex_noDot c s (h c rfl)).mpr (hall c rfl)

lemma qPred_iff (q : Option String) (r : RestaurantDoc)
    (h : ∀ s, q = some s → noDot s = true) :
    qPred q r = true
      ↔ (∀ s, q = some s →
          containsCI s r.name
          ∨ (∃ d, r.description = some d ∧ containsCI s d)
          ∨ containsCI s r.address) := by
  cases q with
  | none => simp [qPred]
  | some s =>
      have hnd := h s rfl
      simp only [qPred]
      by_cases hs : (s == "") = true
      · have hs0 : s = "" := by simpa using hs
        subst hs0
        simp [containsCI_nil]
      · rw [if_neg hs]
        constructor
        · intro hb s2 hs2
          cases hs2
          simp only [Bool.or_eq_true] at hb
          rcases hb with (h1 | h2) | h3
          · exact Or.inl ((regex_noDot _ _ hnd).mp h1)
          · refine Or.inr (Or.inl ?_)
            cases hdesc : r.description with
            | none => rw [hdesc] at h2; simp at h2
            | some d =>
                rw [hdesc] at h2
                exact ⟨d, rfl, (regex_noDot _ _ hnd).mp h2⟩
          · exact Or.inr (Or.inr ((regex_noDot _ _ hnd).mp h3))
        · intro hall
          simp only [Bool.or_eq_true]
          rcases hall s rfl with h1 | ⟨d, hd, h2⟩ | h3
          · exact Or.inl (Or.inl ((regex_noDot _ _ hnd).mpr h1))
          · refine Or.inl (Or.inr ?_)
            rw [hd]
            exact (regex_noDot _ _ hnd).mpr h2
          · exact Or.inr ((regex_noDot _ _ hnd).mpr h3)

lemma geoPred_none (lat lng : Option ℚ) (rk : ℚ) (r : RestaurantDoc)
    (h : lat = none ∨ lng = none) : geoPred lat lng rk r = true := by
  rcases h with h | h
  · subst h; cases lng <;> rfl
  · subst h; cases lat <;> rfl

lemma geoPred_box (la lo rk : ℚ) (r : RestaurantDoc) (x y : ℚ)
    (hx : r.latitude = some x) (hy : r.longitude = some y) :
    geoPred (some la) (some lo) rk r = true
      ↔ (|x - la| ≤ rk / 111 ∧ |y - lo| ≤ rk / 111) := by
  simp only [geoPred, hx, hy]
  simp only [Bool.and_eq_true, decide_eq_true_eq]
  constructor
  · rintro ⟨⟨h1, h2⟩, h3, h4⟩
    constructor
    · rw [abs_sub_le_iff]; constructor <;> linarith
    · rw [abs_sub_le_iff]; constructor <;> linarith
  · rintro ⟨h1, h2⟩
    rw [abs_sub_le_iff] at h1 h2
    obtain ⟨h1a, h1b⟩ := h1
    obtain ⟨h2a, h2b⟩ := h2
    exact ⟨⟨by linarith, by linarith⟩, ⟨by linarith, by linarith⟩⟩

lemma runList_full {α : Type} (dflt maxv : Nat) (pred : α → Bool) (docs : List α)
    (limit? : Option Nat) (n : Nat)
    (hn : validateLimit dflt maxv limit? = .ok n)
    (hcount : (docs.filter pred).length ≤ n) :
    runList dflt maxv pred docs limit? = .ok (docs.filter pred) := by
  unfold runList
  rw [hn]
  simp [get_documents, take_of_len_le _ _ hcount]

/-- Amended C5.  `city` and `q` are passed to the store as case-insensitive
regular-expression patterns, not as literal substrings; for parameter values
free of regex metacharacters this coincides with case-insensitive substring
containment (on `city`, and as an OR across `name`/`description`/`address` for
`q`), up to the documented limit cap. -/
theorem spec_C5_amended (city cuisine q : Option String) (lat lng : Option ℚ)
    (radius_km : ℚ) (limit? : Option Nat) (n : Nat) (db : DB) (r : RestaurantDoc)
    (hn : validateLimit 50 200 limit? = .ok n)
    (hcount : (db.restaurants.filter
      (restaurantPred city cuisine q lat lng radius_km)).length ≤ n)
    (hcity : ∀ c, city = some c → noDot c = true)
    (hq : ∀ s, q = some s → noDot s = true) :
    ∃ l, list_restaurants city cuisine q lat lng radius_km limit? db = .ok l
      ∧ (r ∈ l ↔ r ∈ db.restaurants
          ∧ (∀ c, city = some c → containsCI c r.city)
          ∧ cuisinePred cuisine r = true
          ∧ (∀ s, q = some s →
              containsCI s r.name
              ∨ (∃ d, r.description = some d ∧ containsCI s d)
              ∨ containsCI s r.address)
          ∧ geoPred lat lng radius_km r = true) := by
  refine ⟨db.restaurants.filter (restaurantPred city cuisine q lat lng radius_km),
    runList_full _ _ _ _ _ _ hn hcount, ?_⟩
  rw [List.mem_filter]
  simp only [restaurantPred, Bool.and_eq_true]
  rw [cityPred_iff city r.city hcity, qPred_iff q r hq]
  tauto

/-- The restaurant of the C5 counterexample: city field `"abc"`. -/
def rC5 : RestaurantDoc :=
  ⟨"aaaaaaaaaaaaaaaaaaaaaaaa", none, "N", "A", "abc", [], none, none, none, 0,
   none, [], [], true, [], none⟩

/-- A store holding only that restaurant. -/
def dbC5 : DB := ⟨[rC5], [], [], [], [], []⟩

/-- Counterexample to C5 as stated: the parameter value `"a.c"` selects the
restaurant whose city is `"abc"`, although `"abc"` does not contain `"a.c"` as
a substring — the value is interpreted as a regular expression. -/
theorem spec_C5_counterexample :
    list_restaurants (some "a.c") none none none none 5 none dbC5 = .ok [rC5]
    ∧ ¬ containsCI "a.c" "abc" := by
  refine ⟨by decide, by decide⟩

/-- Witness for the amended C5 at a metacharacter-free pattern. -/
theorem spec_C5_witness :
    ∃ l, list_restaurants (some "ab") none (some "x") none none 5 none dbC2 = .ok l
      ∧ (rC5 ∈ l ↔ rC5 ∈ dbC2.restaurants
          ∧ (∀ c, (some "ab" : Option String) = some c → containsCI c rC5.city)
          ∧ cuisinePred none rC5 = true
          ∧ (∀ s, (some "x" : Option String) = some s →
              containsCI s rC5.name
              ∨ (∃ d, rC5.description = some d ∧ containsCI s d)
              ∨ containsCI s rC5.address)
          ∧ geoPred none none 5 rC5 = true) :=
  spec_C5_amended (some "ab") none (some "x") none none 5 none 50 dbC2 rC5
    (by decide) (by decide)
    (by intro c hc; cases hc; decide)
    (by intro s hs; cases hs; decide)

/-- C6.  With both `lat` and `lng` supplied a stored restaurant is returned iff
it satisfies the other clauses and lies in the inclusive per-axis box
`|latitude - lat| ≤ radius_km/111` and `|longitude - lng| ≤ radius_km/111`;
with `lat` or `lng` absent no geographic clause is applied. -/
theorem spec_C6 (city cuisine q : Option String) (la lo radius_km : ℚ)
    (limit? : Option Nat) (n : Nat) (db : DB) (r : RestaurantDoc) (x y : ℚ)
    (hn : validateLimit 50 200 limit? = .ok n)
    (hcount : (db.restaurants.filter
      (restaurantPred city cuisine q (some la) (some lo) radius_km)).length ≤ n)
    (hx : r.latitude = some x) (hy : r.longitude = some y) :
    (∃ l, list_restaurants city cuisine q (some la) (some lo) radius_km limit? db
        = .ok l
      ∧ (r ∈ l ↔ r ∈ db.restaurants
          ∧ (cityPred city r.city && cuisinePred cuisine r && qPred q r) = true
          ∧ |x - la| ≤ radius_km / 111 ∧ |y - lo| ≤ radius_km / 111))
    ∧ (∀ latO lngO : Option ℚ, latO = none ∨ lngO = none →
        list_restaurants city cuisine q latO lngO radius_km limit? db
          = .ok ((db.restaurants.filter (fun rr =>
              cityPred city rr.city && cuisinePred cuisine rr && qPred q rr)).take n)) := by
  constructor
  · refine ⟨db.restaurants.filter
      (restaurantPred city cuisine q (some la) (some lo) radius_km),
      runList_full _ _ _ _ _ _ hn hcount, ?_⟩
    rw [List.mem_filter]
    simp only [restaurantPred, Bool.and_eq_true]
    rw [geoPred_box la lo radius_km r x y hx hy]
    try tauto
  · intro latO lngO hnone
    have hpred : ∀ rr : RestaurantDoc,
        restaurantPred city cuisine q latO lngO radius_km rr
          = (cityPred city rr.city && cuisinePred cuisine rr && qPred q rr) := by
      intro rr
      simp [restaurantPred, geoPred_none latO lngO radius_km rr hnone]
    unfold list_restaurants runList
    rw [hn]
    simp only [get_documents]
    rw [List.filter_congr (fun rr _ => hpred rr)]

/-- The restaurant of the C6 witness, with coordinates. -/
def rC6 : RestaurantDoc :=
  ⟨"aaaaaaaaaaaaaaaaaaaaaaaa", none, "N", "A", "T", [], none, some 41, some 19,
   0, none, [], [], true, [], none⟩

/-- Witness for C6 at concrete coordinates. -/
theorem spec_C6_witness :
    (∃ l, list_restaurants none none none (some 41) (some 19) 5 none dbC2 = .ok l
      ∧ (rC6 ∈ l ↔ rC6 ∈ dbC2.restaurants
          ∧ (cityPred none rC6.city && cuisinePred none rC6 && qPred none rC6) = true
          ∧ |(41 : ℚ) - 41| ≤ 5 / 111 ∧ |(19 : ℚ) - 19| ≤ 5 / 111))
    ∧ (∀ latO lngO : Option ℚ, latO = none ∨ lngO = none →
        list_restaurants none none none latO lngO 5 none dbC2
          = .ok ((dbC2.restaurants.filter (fun rr =>
              cityPred none rr.city && cuisinePred none rr && qPred none rr)).take 50)) :=
  spec_C6 none none none 41 19 5 none 50 dbC2 rC6 41 19
    (by decide) (by decide) (by decide) (by decide)

lemma lexLe_iff : ∀ (as bs : List Char), lexLe as bs = true ↔ ¬ List.Lex (· < ·) bs as := by
  intro as
  induction as with
  | nil =>
      intro bs
      constructor
      · intro _ h
        exact nomatch h
      · intro _
        rfl
  | cons a tl ih =>
      intro bs
      cases bs with
      | nil =>
          constructor
          · intro h
            exact absurd h (by simp [lexLe])
          · intro h
            exact absurd List.Lex.nil h
      | cons b bs =>
          rcases lt_trichotomy a b with hab | hab | hab
          · constructor
            · intro _ h
              cases h with
              | cons h2 => exact lt_irrefl a hab
              | rel hba => exact absurd hab (asymm hba)
            · intro _
              simp [lexLe, hab]
          · subst hab
            have hirr : ¬ (a < a) := lt_irrefl a
            have hlex : lexLe (a :: tl) (a :: bs) = lexLe tl bs := by
              simp [lexLe, hirr]
            rw [hlex]
            constructor
            · intro h hlt
              cases hlt with
              | cons h2 => exact (ih bs).mp h h2
              | rel hba => exact hirr hba
            · intro h
              exact (ih bs).mpr (fun hbs => h (List.Lex.cons hbs))
          · have hne : (a == b) = false := beq_eq_false_iff_ne.mpr (ne_of_gt hab)
            have hnab : ¬ a < b := asymm hab
            constructor
            · intro h
              exact absurd h (by simp [lexLe, hne, hnab])
            · intro h
              exact absurd (List.Lex.rel hab) h

lemma strLe_iff (a b : String) : lexLe a.data b.data = true ↔ a ≤ b := by
  constructor
  · intro h
    show ¬ b < a
    intro hba
    exact (lexLe_iff a.data b.data).mp h (String.lt_iff_toList_lt.mp hba)
  · intro h
    apply (lexLe_iff a.data b.data).mpr
    intro hlex
    exact (show ¬ b < a from h) (String.lt_iff_toList_lt.mpr hlex)

/-- C7.  With `upcoming_only` true exactly the city-matching events whose
`date` string is lexicographically at or after today's ISO date string are
returned (a plain string comparison); with `upcoming_only` false no date clause
is applied. -/
theorem spec_C7 (city : Option String) (today : String) (limit? : Option Nat)
    (n : Nat) (db : DB) (e : EventDoc)
    (hn : validateLimit 50 200 limit? = .ok n)
    (hcount : (db.events.filter (eventPred city true today)).length ≤ n) :
    (∃ l, list_events city true today limit? db = .ok l
      ∧ (e ∈ l ↔ e ∈ db.events ∧ cityPred city e.city = true ∧ today ≤ e.date))
    ∧ list_events city false today limit? db
        = .ok ((db.events.filter (fun ev => cityPred city ev.city)).take n) := by
  constructor
  · refine ⟨db.events.filter (eventPred city true today),
      runList_full _ _ _ _ _ _ hn hcount, ?_⟩
    rw [List.mem_filter]
    simp [eventPred, Bool.and_eq_true, strLe_iff, and_assoc]
  · have hpred : ∀ ev : EventDoc,
        eventPred city false today ev = cityPred city ev.city := by
      intro ev
      simp [eventPred]
    unfold list_events runList
    rw [hn]
    simp only [get_documents]
    rw [List.filter_congr (fun ev _ => hpred ev)]

/-- An upcoming event for the C7 witness. -/
def evC7 : EventDoc := ⟨"Fest", "Tirana", "2026-12-01", none, "festival", none⟩

/-- A past event for the C7 witness. -/
def evC7b : EventDoc := ⟨"Old", "Tirana", "2020-01-01", none, "festival", none⟩

/-- A store holding the two events. -/
def dbC7 : DB := ⟨[], [], [], [evC7, evC7b], [], []⟩

/-- Witness for C7 on a store with one upcoming and one past event. -/
theorem spec_C7_witness :
    (∃ l, list_events none true "2026-10-12" none dbC7 = .ok l
      ∧ (evC7 ∈ l ↔ evC7 ∈ dbC7.events ∧ cityPred none evC7.city = true
          ∧ "2026-10-12" ≤ evC7.date))
    ∧ list_events none false "2026-10-12" none dbC7
        = .ok ((dbC7.events.filter (fun ev => cityPred none ev.city)).take 50) :=
  spec_C7 none "2026-10-12" none 50 dbC7 evC7 (by decide) (by decide)

end TouristTable
